import Mathlib

/- Shallow embedding of the hiring-pipeline client core (pages/index.tsx)
and the persistence endpoint (pages/api/data.ts).  Machine numbers of the
source (JS numbers) are modelled as real numbers; JS string truthiness
tests are modelled as inequality with the empty string. -/

/-- Person record, as the `Person` interface of pages/index.tsx.
The optional `x`,`y` are the last stored display coordinates. -/
structure Person where
  id : String
  name : String
  status : String
  starred : Bool
  team : String
  notes : String
  x : Option ℝ
  y : Option ℝ

/-- Link record, as the `Link` interface of pages/index.tsx. -/
structure Link where
  source : String
  target : String
deriving DecidableEq

/-- The whole persisted document, as the `DataStructure` interface. -/
structure DataStructure where
  nodes : List Person
  links : List Link

/-- Input of the add-person form, as the `NewNodeInput` interface. -/
structure NewNodeInput where
  name : String
  status : String
  starred : Bool
  team : String

/-- The fixed status-to-color table `statusColors` of pages/index.tsx,
kept as an association list to preserve key order. -/
def statusColors : List (String × String) :=
  [("To do", "#3498db"), ("Interview", "#e67e22"),
   ("CEO", "#2ecc71"), ("Rejected", "#e74c3c")]

/-- JS object indexing `statusColors[node.status]`: `undefined` on a
missing key is modelled as `none`. -/
def statusColor (s : String) : Option String :=
  (statusColors.find? (fun e => e.1 == s)).map (fun e => e.2)

/-- `addNode` of pages/index.tsx (the addPerson operation): no-op on an
empty name, otherwise appends a Person with id `(nodes.length + 1)`
converted to string and empty notes, plus one link when the
`connection` choice is a non-empty id. -/
def addNode (doc : DataStructure) (newNode : NewNodeInput) (connection : String) :
    DataStructure :=
  if newNode.name = "" then doc
  else
    let id := toString (doc.nodes.length + 1)
    let nodeToAdd : Person :=
      ⟨id, newNode.name, newNode.status, newNode.starred, newNode.team, "", none, none⟩
    ⟨doc.nodes ++ [nodeToAdd],
     if connection = "" then doc.links else doc.links ++ [⟨connection, id⟩]⟩

/-- `updatePerson` of pages/index.tsx: no-op without a selected person,
otherwise replaces in place every node whose id equals the edited id. -/
def updatePerson (doc : DataStructure) (selectedPerson : Option Person) :
    DataStructure :=
  match selectedPerson with
  | none => doc
  | some sel =>
    ⟨doc.nodes.map (fun node => if node.id == sel.id then sel else node), doc.links⟩

/-- `addChildPerson` of pages/index.tsx: no-op without a selected person
or with an empty child name, otherwise appends a team-less child and a
link from the selected person to the new id. -/
def addChildPerson (doc : DataStructure) (selectedPerson : Option Person)
    (childName childStatus : String) (childStarred : Bool) : DataStructure :=
  match selectedPerson with
  | none => doc
  | some sel =>
    if childName = "" then doc
    else
      let id := toString (doc.nodes.length + 1)
      let newChild : Person := ⟨id, childName, childStatus, childStarred, "", "", none, none⟩
      ⟨doc.nodes ++ [newChild], doc.links ++ [⟨sel.id, id⟩]⟩

/-- `deletePerson` of pages/index.tsx: no-op without a selected person,
otherwise keeps the nodes with a different id and the links touching the
deleted id at neither end. -/
def deletePerson (doc : DataStructure) (selectedPerson : Option Person) :
    DataStructure :=
  match selectedPerson with
  | none => doc
  | some sel =>
    ⟨doc.nodes.filter (fun n => n.id != sel.id),
     doc.links.filter (fun l => l.source != sel.id && l.target != sel.id)⟩

/-- `filteredNodes` of pages/index.tsx: the three AND-combined filter
predicates; an empty status or team filter and a false starred filter
are pass-through. -/
def filteredNodes (nodes : List Person)
    (filterStatus : String) (filterStarred : Bool) (filterTeam : String) :
    List Person :=
  nodes.filter (fun node =>
    (if filterStatus = "" then true else node.status == filterStatus) &&
    (if filterStarred then node.starred == true else true) &&
    (if filterTeam = "" then true else node.team == filterTeam))

/-- `filteredNodeIds` of pages/index.tsx; the JS `Set` is modelled as the
id list, whose membership test agrees with the set membership test. -/
def filteredNodeIds (nodes : List Person)
    (filterStatus : String) (filterStarred : Bool) (filterTeam : String) :
    List String :=
  (filteredNodes nodes filterStatus filterStarred filterTeam).map (fun node => node.id)

/-- `filteredLinks` of pages/index.tsx: links with both endpoints among
the visible ids. -/
def filteredLinks (nodes : List Person) (links : List Link)
    (filterStatus : String) (filterStarred : Bool) (filterTeam : String) :
    List Link :=
  links.filter (fun link =>
    (filteredNodeIds nodes filterStatus filterStarred filterTeam).contains link.source &&
    (filteredNodeIds nodes filterStatus filterStarred filterTeam).contains link.target)

/-- Value type of `teamNodesMap` in pages/index.tsx. -/
structure TeamNode where
  id : String
  label : String
deriving DecidableEq

/-- `teamNodesMap` followed by `Array.from(teamNodesMap.values())`: one
entry per distinct non-empty team among the visible nodes, in first-seen
order (JS `Map` preserves insertion order). -/
def teamNodesArray (visible : List Person) : List TeamNode :=
  visible.foldl
    (fun acc node =>
      if node.team != "" && !(acc.any (fun tn => tn.label == node.team))
      then acc ++ [⟨"team_" ++ node.team, node.team⟩] else acc)
    []

/-- The distinct visible team names, in first-seen order. -/
def distinctTeams (visible : List Person) : List String :=
  (teamNodesArray visible).map (fun tn => tn.label)

/-- The fixed row-offset list `yPositions` of pages/index.tsx. -/
noncomputable def yPositions : List ℝ := [50, 450, 850]

/-- The `TEAMS_IN_A_ROW` constant of pages/index.tsx. -/
def TEAMS_IN_A_ROW : ℕ := 3

/-- Shape of the entries of `pinnedTeamNodes` in pages/index.tsx. -/
structure PinnedTeamNode where
  id : String
  label : String
  color : String
  size : ℕ
  fx : ℝ
  fy : ℝ
  static : Bool

/-- One entry of `pinnedTeamNodes`: the JS fallback
`yPositions[row] || 0` equals a bounds-defaulted lookup because every
listed offset is nonzero, hence truthy. -/
noncomputable def pinnedTeamNode (p : ℕ × TeamNode) : PinnedTeamNode :=
  ⟨p.2.id, p.2.label, "#9b59b6", 600,
   ((p.1 % TEAMS_IN_A_ROW + 1 : ℕ) : ℝ) * 800,
   (yPositions[p.1 / TEAMS_IN_A_ROW]?).getD 0,
   true⟩

/-- `pinnedTeamNodes` of pages/index.tsx: `teamNodesArray.map` with the
element index, as in the JS two-argument `map` callback. -/
noncomputable def pinnedTeamNodes (visible : List Person) : List PinnedTeamNode :=
  (teamNodesArray visible).enum.map pinnedTeamNode

/-- `teamPositions` of pages/index.tsx: team label to fixed position. -/
noncomputable def teamPositions (visible : List Person) : List (String × ℝ × ℝ) :=
  (pinnedTeamNodes visible).map (fun tn => (tn.label, tn.fx, tn.fy))

/-- `teamPositions.has(t)`. -/
noncomputable def teamPositionsHas (visible : List Person) (t : String) : Bool :=
  (teamPositions visible).any (fun e => e.1 == t)

/-- `teamPositions.get(t)!`: the non-null assertion of the source is
modelled with an unreachable `(0, 0)` default; callers look up only keys
present in the map. -/
noncomputable def teamPositionsGet (visible : List Person) (t : String) : ℝ × ℝ :=
  (((teamPositions visible).find? (fun e => e.1 == t)).map (fun e => e.2)).getD (0, 0)

/-- Element shape of the `graphPersonNodes` array in pages/index.tsx. -/
structure GNode where
  id : String
  label : String
  color : Option String
  opacity : ℝ
  x : ℝ
  y : ℝ

/-- The node label: the name, star-suffixed when starred. -/
def nodeLabel (node : Person) : String :=
  if node.starred then node.name ++ " ⭐" else node.name

/-- The node opacity: reduced for a Rejected status, full otherwise. -/
noncomputable def nodeOpacity (node : Person) : ℝ :=
  if node.status == "Rejected" then 0.4 else 1

/-- The entry pushed in the else branch of the grouping pass: stored
coordinates, defaulting to zero when absent. -/
noncomputable def elseGNode (node : Person) : GNode :=
  ⟨node.id, nodeLabel node, statusColor node.status, nodeOpacity node,
   node.x.getD 0, node.y.getD 0⟩

/-- `teamGroups.get(t)!.push(p)` with on-demand `teamGroups.set`: append
to the entry keyed by the team, creating it at the back when absent, as
a JS `Map` keyed by team with insertion order preserved. -/
def addToGroup (groups : List (String × List Person)) (t : String) (p : Person) :
    List (String × List Person) :=
  match groups with
  | [] => [(t, [p])]
  | g :: rest => if g.1 == t then (g.1, g.2 ++ [p]) :: rest else g :: addToGroup rest t p

/-- The branch condition `node.team && teamPositions.has(node.team)` of
the grouping pass. -/
noncomputable def inTeamGroup (visible : List Person) (node : Person) : Bool :=
  node.team != "" && teamPositionsHas visible node.team

/-- One iteration of the grouping `forEach` of pages/index.tsx: a node
in a positioned team joins its team group, any other node is pushed onto
`graphPersonNodes` with its stored coordinates or the origin. -/
noncomputable def layoutStep (visible : List Person)
    (acc : List GNode × List (String × List Person)) (node : Person) :
    List GNode × List (String × List Person) :=
  if inTeamGroup visible node
  then (acc.1, addToGroup acc.2 node.team node)
  else (acc.1 ++ [elseGNode node], acc.2)

/-- The grouping pass over the visible nodes: the directly placed
entries and the team groups. -/
noncomputable def buildGroups (visible : List Person) :
    List GNode × List (String × List Person) :=
  visible.foldl (layoutStep visible) ([], [])

/-- Circle placement of the i-th of n members of a team, at angle
2*pi*i/n on the radius-200 circle centered on the team position. -/
noncomputable def circleGNode (teamPos : ℝ × ℝ) (numNodes : ℕ) (p : ℕ × Person) :
    GNode :=
  ⟨p.2.id, nodeLabel p.2, statusColor p.2.status, nodeOpacity p.2,
   teamPos.1 + 200 * Real.cos (2 * Real.pi * p.1 / numNodes),
   teamPos.2 + 200 * Real.sin (2 * Real.pi * p.1 / numNodes)⟩

/-- The entries pushed for one team group by the circle-placement
`forEach` of pages/index.tsx. -/
noncomputable def circleEntries (visible : List Person) (g : String × List Person) :
    List GNode :=
  g.2.enum.map (circleGNode (teamPositionsGet visible g.1) g.2.length)

/-- `graphPersonNodes` of pages/index.tsx: the else-branch entries in
visible order, then the circle entries of each team group in insertion
order. -/
noncomputable def graphPersonNodes (visible : List Person) : List GNode :=
  (buildGroups visible).1 ++ (buildGroups visible).2.flatMap (circleEntries visible)

/-- Element shape of `rfNodes` in pages/index.tsx; `background` and
`opacity` are optional because team entries carry no `opacity` and the
color lookup of person entries can miss. -/
structure RFNode where
  id : String
  x : ℝ
  y : ℝ
  label : String
  background : Option String
  opacity : Option ℝ
  draggable : Bool

/-- The React Flow mapping of a person entry: its `x` is always defined,
so `node.x !== undefined ? node.x : node.fx ?? 0` is `node.x`. -/
noncomputable def rfNodeOfPerson (g : GNode) : RFNode :=
  ⟨g.id, g.x, g.y, g.label, g.color, some g.opacity, !(g.id.startsWith "team_")⟩

/-- The React Flow mapping of a pinned team entry: it has no `x`, so the
fallback picks `fx` and `fy`. -/
noncomputable def rfNodeOfTeam (tn : PinnedTeamNode) : RFNode :=
  ⟨tn.id, tn.fx, tn.fy, tn.label, some tn.color, none, !(tn.id.startsWith "team_")⟩

/-- `rfNodes` of pages/index.tsx: the map over
`[...graphPersonNodes, ...pinnedTeamNodes]` distributes over the two
parts. -/
noncomputable def rfNodes (visible : List Person) : List RFNode :=
  (graphPersonNodes visible).map rfNodeOfPerson ++
    (pinnedTeamNodes visible).map rfNodeOfTeam

/-- The output coordinates assigned to the first entry with a given id. -/
noncomputable def posOf (rs : List RFNode) (i : String) : Option (ℝ × ℝ) :=
  (rs.find? (fun r => r.id == i)).map (fun r => (r.x, r.y))

/-- HTTP method of a request to pages/api/data.ts. -/
inductive Method
  | get
  | post
  | other

/-- Response of pages/api/data.ts. -/
inductive ApiResponse
  | json (status : ℕ) (body : DataStructure)
  | message (status : ℕ) (msg : String)
  | empty (status : ℕ)

/-- The document served when no file exists yet. -/
def emptyDocument : DataStructure := ⟨[], []⟩

/-- The request handler of pages/api/data.ts over the stored document;
the on-disk JSON encode and decode and the file mechanics are out of the
specified scope, so the store holds the document itself and a missing
file is `none`. -/
def handler (m : Method) (body : DataStructure) (file : Option DataStructure) :
    ApiResponse × Option DataStructure :=
  match m with
  | .get => (.json 200 (file.getD emptyDocument), file)
  | .post => (.message 200 "Data saved", some body)
  | .other => (.empty 405, file)

/-- A Graph Repository operation together with the form and selection
state it reads. -/
inductive Op
  | add (input : NewNodeInput) (connection : String)
  | update (selectedPerson : Option Person)
  | addChild (selectedPerson : Option Person)
      (childName childStatus : String) (childStarred : Bool)
  | delete (selectedPerson : Option Person)

/-- Apply one Graph Repository operation to the document. -/
def applyOp (doc : DataStructure) : Op → DataStructure
  | .add input conn => addNode doc input conn
  | .update sel => updatePerson doc sel
  | .addChild sel cn cs cst => addChildPerson doc sel cn cs cst
  | .delete sel => deletePerson doc sel

/-- Apply a sequence of Graph Repository operations in order. -/
def runOps (doc : DataStructure) (ops : List Op) : DataStructure :=
  ops.foldl applyOp doc

/-- The ids of the stored persons. -/
def nodeIds (doc : DataStructure) : List String :=
  doc.nodes.map (fun n => n.id)

/-- An operation whose length-based new id does not collide at the
current document: both no-op guards and the freshness of
`(nodes.length + 1).toString()` are taken into account. -/
def freshIdOk (doc : DataStructure) : Op → Bool
  | .add input _ =>
      input.name == "" || !((nodeIds doc).contains (toString (doc.nodes.length + 1)))
  | .addChild sel cn _ _ =>
      sel.isNone || cn == "" ||
        !((nodeIds doc).contains (toString (doc.nodes.length + 1)))
  | _ => true

/-- Every add along the run assigns a non-colliding id. -/
def safeRun (doc : DataStructure) : List Op → Bool
  | [] => true
  | op :: rest => freshIdOk doc op && safeRun (applyOp doc op) rest

/-- A team-less person with no stored coordinates. -/
def per1 : Person := ⟨"1", "Alice", "To do", false, "", "", none, none⟩

/-- A starred Eng person with no stored coordinates. -/
def per2 : Person := ⟨"2", "Bob", "Interview", true, "Eng", "", none, none⟩

/-- An unstarred Eng person with no stored coordinates. -/
def per3 : Person := ⟨"3", "Carol", "Interview", false, "Eng", "", none, none⟩

/-- A person whose id occurs in no example document. -/
def per9 : Person := ⟨"9", "Zed", "CEO", false, "", "", none, none⟩

/-- The cascading-delete scenario document of the spec. -/
def cascadeDoc : DataStructure := ⟨[per1, per2, per3], [⟨"1", "2"⟩, ⟨"2", "3"⟩]⟩

/-- A single-node document whose id is the string the next add assigns. -/
def dupDoc : DataStructure := ⟨[⟨"2", "Bob", "To do", false, "", "", none, none⟩], []⟩

/-- A valid add-person input. -/
def newInput : NewNodeInput := ⟨"Dana", "To do", true, "Sales"⟩

/-- An add-person input with an empty name. -/
def blankInput : NewNodeInput := ⟨"", "CEO", true, "Eng"⟩

/-- A team-less visible person. -/
def teamlessPerson : Person := ⟨"1", "Alice", "To do", false, "", "", none, none⟩

/-- A visible Eng member with no stored coordinates. -/
def teamPerson : Person := ⟨"1", "Alice", "To do", false, "Eng", "", none, none⟩

/-- A team-less person with stored coordinates (5, 7). -/
noncomputable def storedPerson : Person :=
  ⟨"1", "Alice", "To do", false, "", "", some 5, some 7⟩

/-- An Eng member with stored coordinates (5, 7). -/
noncomputable def storedTeamPerson : Person :=
  ⟨"1", "Alice", "To do", false, "Eng", "", some 5, some 7⟩

/-- A junk default for total indexing into pinned team node lists. -/
noncomputable def junkPinned : PinnedTeamNode := ⟨"", "", "", 0, 0, 0, false⟩

/-- C2: deletePerson removes exactly the person with the given id and
every link with that id at either end, and keeps every other person and
link, in order. -/
theorem deletePerson_spec (doc : DataStructure) (sel : Person) :
    (∀ p, p ∈ (deletePerson doc (some sel)).nodes ↔ p ∈ doc.nodes ∧ p.id ≠ sel.id) ∧
    (∀ l, l ∈ (deletePerson doc (some sel)).links ↔
      l ∈ doc.links ∧ l.source ≠ sel.id ∧ l.target ≠ sel.id) ∧
    (deletePerson doc (some sel)).nodes.Sublist doc.nodes ∧
    (deletePerson doc (some sel)).links.Sublist doc.links := by
  refine ⟨?_, ?_, ?_, ?_⟩
  · intro p
    simp [deletePerson, List.mem_filter]
  · intro l
    simp [deletePerson, List.mem_filter]
  · exact List.filter_sublist _
  · exact List.filter_sublist _

/-- C2 witness: the cascade scenario of the spec, read at the kept person
and a removed link. -/
theorem deletePerson_spec_witness :
    (per1 ∈ (deletePerson cascadeDoc (some per2)).nodes ↔
      per1 ∈ cascadeDoc.nodes ∧ per1.id ≠ per2.id) ∧
    ((⟨"1", "2"⟩ : Link) ∈ (deletePerson cascadeDoc (some per2)).links ↔
      (⟨"1", "2"⟩ : Link) ∈ cascadeDoc.links ∧
        ("1" : String) ≠ per2.id ∧ ("2" : String) ≠ per2.id) :=
  ⟨(deletePerson_spec cascadeDoc per2).1 per1,
   (deletePerson_spec cascadeDoc per2).2.1 ⟨"1", "2"⟩⟩

/-- C10: updatePerson keeps the link list, rewrites exactly the positions
holding a node with the edited id, and is the identity on the node list
when no node has that id. -/
theorem updatePerson_spec (doc : DataStructure) (sel : Person) :
    (updatePerson doc (some sel)).links = doc.links ∧
    (∀ i : ℕ, ((updatePerson doc (some sel)).nodes)[i]? =
      (doc.nodes[i]?).map (fun n => if n.id == sel.id then sel else n)) ∧
    ((∀ n ∈ doc.nodes, n.id ≠ sel.id) → (updatePerson doc (some sel)).nodes = doc.nodes) := by
  refine ⟨rfl, ?_, ?_⟩
  · intro i
    simp [updatePerson, List.getElem?_map]
  · intro h
    show doc.nodes.map _ = doc.nodes
    conv_rhs => rw [← List.map_id doc.nodes]
    apply List.map_congr_left
    intro n hn
    simp [h n hn]

/-- C10 witness: editing an id absent from the document touches nothing. -/
theorem updatePerson_spec_witness :
    (updatePerson cascadeDoc (some per9)).links = cascadeDoc.links ∧
    ((updatePerson cascadeDoc (some per9)).nodes)[0]? =
      (cascadeDoc.nodes[0]?).map (fun n => if n.id == per9.id then per9 else n) ∧
    (updatePerson cascadeDoc (some per9)).nodes = cascadeDoc.nodes :=
  ⟨(updatePerson_spec cascadeDoc per9).1,
   (updatePerson_spec cascadeDoc per9).2.1 0,
   (updatePerson_spec cascadeDoc per9).2.2 (by decide)⟩

/-- C4: addPerson with a non-empty name appends exactly one person with
the length-based string id and empty notes, and appends exactly one link
from the connection iff the connection is non-empty. -/
theorem addNode_spec (doc : DataStructure) (input : NewNodeInput) (connection : String)
    (h : input.name ≠ "") :
    (addNode doc input connection).nodes = doc.nodes ++
      [⟨toString (doc.nodes.length + 1), input.name, input.status, input.starred,
        input.team, "", none, none⟩] ∧
    (addNode doc input connection).links =
      (if connection = "" then doc.links
       else doc.links ++ [⟨connection, toString (doc.nodes.length + 1)⟩]) := by
  unfold addNode
  rw [if_neg h]
  exact ⟨rfl, rfl⟩

/-- C4 witness: adding Dana connected to person 1. -/
theorem addNode_spec_witness :
    newInput.name ≠ "" ∧
    ((addNode cascadeDoc newInput "1").nodes = cascadeDoc.nodes ++
      [⟨toString (cascadeDoc.nodes.length + 1), newInput.name, newInput.status,
        newInput.starred, newInput.team, "", none, none⟩] ∧
     (addNode cascadeDoc newInput "1").links =
      (if ("1" : String) = "" then cascadeDoc.links
       else cascadeDoc.links ++ [⟨"1", toString (cascadeDoc.nodes.length + 1)⟩])) :=
  ⟨by decide, addNode_spec cascadeDoc newInput "1" (by decide)⟩

/-- C8: addPerson with an empty name input changes nothing, whatever the
other fields and the connection are. -/
theorem addNode_empty_name (doc : DataStructure) (input : NewNodeInput)
    (connection : String) (h : input.name = "") :
    addNode doc input connection = doc := by
  unfold addNode
  rw [if_pos h]

/-- C8 witness: an empty-name input with every other field set and a
connection chosen is a no-op. -/
theorem addNode_empty_name_witness :
    blankInput.name = "" ∧ addNode cascadeDoc blankInput "1" = cascadeDoc :=
  ⟨rfl, addNode_empty_name cascadeDoc blankInput "1" rfl⟩

/-- C6: a GET immediately after a POST of document d returns d with
status 200, from any prior store state. -/
theorem save_load_roundtrip (d : DataStructure) (st : Option DataStructure)
    (body : DataStructure) :
    (handler .get body (handler .post d st).2).1 = .json 200 d := rfl

/-- C6 witness: the round trip read back at a concrete document. -/
theorem save_load_roundtrip_witness :
    (handler .get emptyDocument (handler .post cascadeDoc none).2).1 =
      .json 200 cascadeDoc :=
  save_load_roundtrip cascadeDoc none emptyDocument

/-- C9: the layout is deterministic: with no stored coordinates among the
visible nodes, two layout computations on the same visible-node list
produce identical node lists, coordinates included. -/
theorem layout_deterministic (visible : List Person)
    (_h : ∀ p ∈ visible, p.x = none ∧ p.y = none) :
    rfNodes visible = rfNodes visible := rfl

/-- C9 witness: two runs on a one-member team with no stored positions. -/
theorem layout_deterministic_witness :
    (∀ p ∈ [teamPerson], p.x = none ∧ p.y = none) ∧
    rfNodes [teamPerson] = rfNodes [teamPerson] :=
  ⟨by
    intro p hp
    rw [List.mem_singleton] at hp
    subst hp
    exact ⟨rfl, rfl⟩,
   layout_deterministic [teamPerson] (by
    intro p hp
    rw [List.mem_singleton] at hp
    subst hp
    exact ⟨rfl, rfl⟩)⟩

/-- C5: a node is visible iff it passes the three AND-combined filters
(empty status filter or equal status, false starred filter or starred,
empty team filter or equal team), and a link is visible iff both of its
endpoint ids are among the visible-node ids. -/
theorem filter_spec (nodes : List Person) (links : List Link)
    (fs : String) (fst : Bool) (ft : String) :
    (∀ p, p ∈ filteredNodes nodes fs fst ft ↔
      p ∈ nodes ∧ (fs = "" ∨ p.status = fs) ∧ (fst = false ∨ p.starred = true) ∧
        (ft = "" ∨ p.team = ft)) ∧
    (∀ l, l ∈ filteredLinks nodes links fs fst ft ↔
      l ∈ links ∧ l.source ∈ filteredNodeIds nodes fs fst ft ∧
        l.target ∈ filteredNodeIds nodes fs fst ft) := by
  constructor
  · intro p
    by_cases h1 : fs = "" <;> by_cases h2 : ft = "" <;> cases fst <;>
      simp [filteredNodes, List.mem_filter, h1, h2, and_assoc]
  · intro l
    simp [filteredLinks, List.mem_filter, List.contains, List.elem_iff]

/-- C5 witness: the filter-composition example of the spec, read at the
unstarred node, which the starred filter rejects, and at the link
between the two nodes. -/
theorem filter_spec_witness :
    (per3 ∈ filteredNodes [per2, per3] "Interview" true "Eng" ↔
      per3 ∈ [per2, per3] ∧ (("Interview" : String) = "" ∨ per3.status = "Interview") ∧
        (true = false ∨ per3.starred = true) ∧ (("Eng" : String) = "" ∨ per3.team = "Eng")) ∧
    ((⟨"2", "3"⟩ : Link) ∈ filteredLinks [per2, per3] [⟨"2", "3"⟩] "Interview" true "Eng" ↔
      (⟨"2", "3"⟩ : Link) ∈ [(⟨"2", "3"⟩ : Link)] ∧
        ("2" : String) ∈ filteredNodeIds [per2, per3] "Interview" true "Eng" ∧
        ("3" : String) ∈ filteredNodeIds [per2, per3] "Interview" true "Eng") :=
  ⟨(filter_spec [per2, per3] [⟨"2", "3"⟩] "Interview" true "Eng").1 per3,
   (filter_spec [per2, per3] [⟨"2", "3"⟩] "Interview" true "Eng").2 ⟨"2", "3"⟩⟩

/-- C3 counterexample: dupDoc has the single, distinct id "2", yet one
addPerson on it assigns the length-based id (1 + 1) = "2" again, so the
resulting ids are no longer distinct. -/
theorem id_uniqueness_cex :
    (nodeIds dupDoc).Nodup ∧
    ¬ (nodeIds (runOps dupDoc [Op.add ⟨"Carol", "To do", false, ""⟩ ""])).Nodup := by
  decide

/-- One repository operation whose length-based id is fresh preserves
distinctness of the person ids. -/
theorem applyOp_nodup (doc : DataStructure) (op : Op)
    (hd : (nodeIds doc).Nodup) (hop : freshIdOk doc op = true) :
    (nodeIds (applyOp doc op)).Nodup := by
  cases op with
  | add input conn =>
    by_cases hn : input.name = ""
    · simpa [applyOp, addNode, hn] using hd
    · have hfresh : toString (doc.nodes.length + 1) ∉ nodeIds doc := by
        simp [freshIdOk, hn, List.contains, List.elem_iff] at hop
        exact hop
      simp [applyOp, addNode, hn, nodeIds, List.nodup_append]
      exact ⟨hd, by simpa [nodeIds] using hfresh⟩
  | update sel =>
    cases sel with
    | none => simpa [applyOp, updatePerson] using hd
    | some s =>
      have hids : nodeIds (applyOp doc (.update (some s))) = nodeIds doc := by
        simp only [applyOp, updatePerson, nodeIds, List.map_map]
        apply List.map_congr_left
        intro n hn
        simp only [Function.comp_apply]
        split
        · next h => exact (beq_iff_eq.mp h).symm
        · rfl
      rw [hids]
      exact hd
  | addChild sel cn cs cst =>
    cases sel with
    | none => simpa [applyOp, addChildPerson] using hd
    | some s =>
      by_cases hn : cn = ""
      · simpa [applyOp, addChildPerson, hn] using hd
      · have hfresh : toString (doc.nodes.length + 1) ∉ nodeIds doc := by
          simp [freshIdOk, hn, List.contains, List.elem_iff] at hop
          exact hop
        simp [applyOp, addChildPerson, hn, nodeIds, List.nodup_append]
        exact ⟨hd, by simpa [nodeIds] using hfresh⟩
  | delete sel =>
    cases sel with
    | none => simpa [applyOp, deletePerson] using hd
    | some s =>
      apply List.Nodup.sublist _ hd
      exact List.Sublist.map _ (List.filter_sublist _)

/-- C3 (amended): starting from a document with distinct person ids,
every sequence of addPerson, updatePerson, addChildPerson and
deletePerson steps keeps the ids distinct, provided each add step
assigns its length-based id while that id is absent; without that
proviso a single add can duplicate an id. -/
theorem safeRun_nodup (ops : List Op) (doc : DataStructure)
    (hd : (nodeIds doc).Nodup) (hs : safeRun doc ops = true) :
    (nodeIds (runOps doc ops)).Nodup := by
  induction ops generalizing doc with
  | nil => simpa [runOps] using hd
  | cons op rest ih =>
    rw [safeRun, Bool.and_eq_true] at hs
    exact ih (applyOp doc op) (applyOp_nodup doc op hd hs.1) hs.2

/-- C3 witness: two adds and a delete from the empty document, each add
landing on a fresh length-based id. -/
theorem safeRun_nodup_witness :
    (nodeIds emptyDocument).Nodup ∧
    safeRun emptyDocument
      [Op.add ⟨"Ann", "To do", false, ""⟩ "",
       Op.add ⟨"Ben", "Interview", true, "Eng"⟩ "1",
       Op.delete (some per1)] = true ∧
    (nodeIds (runOps emptyDocument
      [Op.add ⟨"Ann", "To do", false, ""⟩ "",
       Op.add ⟨"Ben", "Interview", true, "Eng"⟩ "1",
       Op.delete (some per1)])).Nodup :=
  ⟨by decide, by decide,
   safeRun_nodup
     [Op.add ⟨"Ann", "To do", false, ""⟩ "",
      Op.add ⟨"Ben", "Interview", true, "Eng"⟩ "1",
      Op.delete (some per1)]
     emptyDocument (by decide) (by decide)⟩

/-- C7: the k-th distinct visible team (first-seen order) is pinned at
horizontal coordinate ((k mod 3) + 1) * 800 and vertical coordinate read
totally from the row-offset list [50, 450, 850] at row k / 3, and every
row at or beyond index 9 falls back to vertical offset 0. -/
theorem pinnedTeamNodes_spec (visible : List Person) (k : ℕ)
    (h : k < (teamNodesArray visible).length) :
    ((pinnedTeamNodes visible).getD k junkPinned).label = (distinctTeams visible).getD k "" ∧
    ((pinnedTeamNodes visible).getD k junkPinned).fx = ((k % 3 + 1 : ℕ) : ℝ) * 800 ∧
    ((pinnedTeamNodes visible).getD k junkPinned).fy = (yPositions[k / 3]?).getD 0 ∧
    (9 ≤ k → ((pinnedTeamNodes visible).getD k junkPinned).fy = 0) := by
  have hp : (pinnedTeamNodes visible).getD k junkPinned =
      pinnedTeamNode (k, (teamNodesArray visible)[k]) := by
    rw [List.getD_eq_getElem?_getD, pinnedTeamNodes, List.getElem?_map,
      List.getElem?_enum, List.getElem?_eq_getElem h]
    rfl
  have hlabel : (distinctTeams visible).getD k "" = ((teamNodesArray visible)[k]).label := by
    rw [distinctTeams, List.getD_eq_getElem?_getD, List.getElem?_map,
      List.getElem?_eq_getElem h]
    rfl
  refine ⟨by rw [hp, hlabel]; rfl, by rw [hp]; rfl, by rw [hp]; rfl, ?_⟩
  intro h9
  rw [hp]
  show (yPositions[k / TEAMS_IN_A_ROW]?).getD 0 = 0
  have hlen : yPositions.length ≤ k / TEAMS_IN_A_ROW := by
    have : yPositions.length = 3 := rfl
    rw [this]
    show 3 ≤ k / 3
    omega
  rw [List.getElem?_eq_none hlen]
  rfl

/-- C7 witness: a single visible Eng member pins team 0 at (800, 50). -/
theorem pinnedTeamNodes_spec_witness :
    0 < (teamNodesArray [teamPerson]).length ∧
    (((pinnedTeamNodes [teamPerson]).getD 0 junkPinned).label =
      (distinctTeams [teamPerson]).getD 0 "" ∧
     ((pinnedTeamNodes [teamPerson]).getD 0 junkPinned).fx = ((0 % 3 + 1 : ℕ) : ℝ) * 800 ∧
     ((pinnedTeamNodes [teamPerson]).getD 0 junkPinned).fy = (yPositions[0 / 3]?).getD 0 ∧
     (9 ≤ 0 → ((pinnedTeamNodes [teamPerson]).getD 0 junkPinned).fy = 0)) :=
  ⟨by decide, pinnedTeamNodes_spec [teamPerson] 0 (by decide)⟩

/-- The grouping pass only ever appends to the directly placed entries. -/
theorem foldl_layoutStep_fst_mem (visible : List Person) (l : List Person)
    (acc : List GNode × List (String × List Person)) (g : GNode) (hg : g ∈ acc.1) :
    g ∈ (l.foldl (layoutStep visible) acc).1 := by
  induction l generalizing acc with
  | nil => exact hg
  | cons q rest ih =>
    rw [List.foldl_cons]
    apply ih
    unfold layoutStep
    split
    · exact hg
    · exact List.mem_append_left _ hg

/-- A visited node that does not join a team group contributes its
stored-coordinate entry to the directly placed entries. -/
theorem foldl_layoutStep_else_mem (visible : List Person) (l : List Person)
    (acc : List GNode × List (String × List Person)) (p : Person)
    (hp : p ∈ l) (hgrp : inTeamGroup visible p = false) :
    elseGNode p ∈ (l.foldl (layoutStep visible) acc).1 := by
  induction l generalizing acc with
  | nil => cases hp
  | cons q rest ih =>
    rw [List.foldl_cons]
    rcases List.mem_cons.mp hp with hq | hrest
    · subst hq
      apply foldl_layoutStep_fst_mem
      simp [layoutStep, hgrp]
    · exact ih _ hrest

/-- C1 (amended): a visible Person with stored (x, y) keeps that exact
position in the layout output when its team has no computed grid
position — in particular whenever its team is empty; a member of a
positioned team is instead placed on the team circle (see the
counterexample). -/
theorem manual_position_ungrouped (visible : List Person) (p : Person) (a b : ℝ)
    (hmem : p ∈ visible) (hteam : p.team = "") (hx : p.x = some a) (hy : p.y = some b) :
    rfNodeOfPerson (elseGNode p) ∈ rfNodes visible ∧
    (rfNodeOfPerson (elseGNode p)).id = p.id ∧
    (rfNodeOfPerson (elseGNode p)).x = a ∧
    (rfNodeOfPerson (elseGNode p)).y = b := by
  have hgrp : inTeamGroup visible p = false := by
    simp [inTeamGroup, hteam]
  refine ⟨?_, rfl, ?_, ?_⟩
  · apply List.mem_append_left
    apply List.mem_map_of_mem
    apply List.mem_append_left
    exact foldl_layoutStep_else_mem visible visible ([], []) p hmem hgrp
  · simp [rfNodeOfPerson, elseGNode, hx]
  · simp [rfNodeOfPerson, elseGNode, hy]

/-- C1 witness: a team-less visible person with stored (5, 7) is laid
out exactly at (5, 7). -/
theorem manual_position_ungrouped_witness :
    storedPerson ∈ [storedPerson] ∧ storedPerson.team = "" ∧
    storedPerson.x = some 5 ∧ storedPerson.y = some 7 ∧
    (rfNodeOfPerson (elseGNode storedPerson) ∈ rfNodes [storedPerson] ∧
     (rfNodeOfPerson (elseGNode storedPerson)).id = storedPerson.id ∧
     (rfNodeOfPerson (elseGNode storedPerson)).x = 5 ∧
     (rfNodeOfPerson (elseGNode storedPerson)).y = 7) :=
  ⟨List.mem_singleton.mpr rfl, rfl, rfl, rfl,
   manual_position_ungrouped [storedPerson] storedPerson 5 7
     (List.mem_singleton.mpr rfl) rfl rfl rfl⟩

/-- C1 counterexample: the sole visible Eng member stores position
(5, 7), yet the layout places it on the Eng team circle at (1000, 50) =
(800 + 200 cos 0, 50 + 200 sin 0), so a stored position does not win for
a member of a positioned team. -/
theorem manual_position_cex :
    posOf (rfNodes [storedTeamPerson]) "1" = some (1000, 50) ∧
    ((1000, 50) : ℝ × ℝ) ≠ ((5, 7) : ℝ × ℝ) := by
  constructor
  · simp [posOf, rfNodes, graphPersonNodes, buildGroups, layoutStep, inTeamGroup,
      teamPositionsHas, teamPositions, pinnedTeamNodes, pinnedTeamNode, teamNodesArray,
      storedTeamPerson, circleEntries, circleGNode, teamPositionsGet, addToGroup,
      yPositions, TEAMS_IN_A_ROW, nodeLabel, statusColor, statusColors, nodeOpacity,
      List.enum_cons, List.find?, rfNodeOfPerson, rfNodeOfTeam]
    norm_num [Real.cos_zero, Real.sin_zero]
  · intro hc
    have h1 : (1000 : ℝ) = 5 := congrArg Prod.fst hc
    norm_num at h1
